import Mathlib

/-!
Verification of the mutiny in-memory tplot-variable registry and its
numeric transformation suite, by shallow embedding of the relevant
Python functions into Lean.

Conventions of the embedding:
* Python dicts that preserve insertion order (the variable registry
  `data_quants`) are modelled as association lists `List (String × α)`;
  dict assignment replaces in place or appends (`pyUpdate`), `del`
  removes a key (`pyErase`).
* Floating point values are modelled as rationals; a NaN-capable value
  is `Option ℚ` with `none` standing for NaN.
* Early returns and logged no-ops are modelled as explicit result
  constructors.
-/

namespace Mutiny

/-- Lookup in an insertion-ordered association list (Python `d[k]` /
`k in d`). -/
def alookup {α : Type} : List (String × α) → String → Option α
  | [], _ => none
  | (k', v) :: rest, k => if k' = k then some v else alookup rest k

/-- Python dict assignment `d[k] = v`: replaces the value in place when
the key is present (keeping its position), appends at the end
otherwise. -/
def pyUpdate {α : Type} : List (String × α) → String → α → List (String × α)
  | [], k, v => [(k, v)]
  | (k', v') :: rest, k, v =>
    if k' = k then (k, v) :: rest else (k', v') :: pyUpdate rest k v

/-- Python `del d[k]`: removes the key, preserving the order of the
other entries (no-op when the key is absent; the places where we use it
only erase keys that are present). -/
def pyErase {α : Type} : List (String × α) → String → List (String × α)
  | [], _ => []
  | (k', v) :: rest, k => if k' = k then rest else (k', v) :: pyErase rest k

theorem alookup_pyUpdate_self {α : Type} (l : List (String × α)) (k : String) (v : α) :
    alookup (pyUpdate l k v) k = some v := by
  induction l with
  | nil => simp [pyUpdate, alookup]
  | cons hd tl ih =>
    obtain ⟨k', v'⟩ := hd
    by_cases h : k' = k
    · simp [pyUpdate, alookup, h]
    · simp [pyUpdate, alookup, h, ih]

/-! ## time_clip (src/mutiny/tplot_math/time_clip.py)

The per-variable clipping computation.  The guards appear in the order
of the source: the `time_start > time_end` validation aborts the whole
call; an empty time axis, a window with no overlap, a window containing
the whole span, and an empty resolved slice each leave the variable
untouched (`continue`); otherwise the data is rebuilt over the slice
`[index_start, index_end)`. -/

/-- `index_start` scan: `for i in range(index_end): if new_time[i] >=
new_time_start: index_start = i; break`; `index_start` stays `0` when
the loop never breaks. -/
def scanStart (time : List ℚ) (time_start : ℚ) : ℕ :=
  match time.findIdx? (fun t => decide (time_start ≤ t)) with
  | some i => i
  | none => 0

/-- `found_end` scan: `for i in range(index_start, index_end): if
new_time[i] > new_time_end: found_end = i; break` with `found_end`
defaulting to `index_end = len(time)`. -/
def scanEnd (time : List ℚ) (index_start : ℕ) (time_end : ℚ) : ℕ :=
  match (time.drop index_start).findIdx? (fun t => decide (time_end < t)) with
  | some i => index_start + i
  | none => time.length

/-- Outcome of `time_clip` for one variable. -/
inductive ClipResult where
  | startAfterEnd
  | emptyData
  | outOfRangeWarn
  | fullRange
  | emptyClipWarn
  | trimmed (times : List ℚ)
deriving DecidableEq

/-- The clipping decision of `time_clip` for a single variable with a
numeric time axis (for numeric input `time_float` is the identity). -/
def time_clip (time : List ℚ) (time_start time_end : ℚ) : ClipResult :=
  if time_end < time_start then .startAfterEnd
  else if time.length < 1 then .emptyData
  else if decide (time.getLastD 0 < time_start) || decide (time_end < time.headD 0) then
    .outOfRangeWarn
  else if decide (time_start ≤ time.headD 0) && decide (time.getLastD 0 ≤ time_end) then
    .fullRange
  else
    let index_start := scanStart time time_start
    let index_end := scanEnd time index_start time_end
    if index_start = index_end then .emptyClipWarn
    else .trimmed ((time.drop index_start).take (index_end - index_start))

end Mutiny

namespace Mutiny

/-- C2: for the time axis `[0,4,8,12,16]`, `time_clip(name, 4, 12)`
retains exactly the samples at `t = 4, 8, 12` (the slice from the first
index with `t ≥ time_start` up to, but excluding, the first later index
with `t > time_end`); `time_clip(name, 100, 200)` leaves the variable
untrimmed with a warning; and `time_start > time_end` aborts the whole
call with an error. -/
theorem time_clip_boundary_semantics :
    time_clip [0, 4, 8, 12, 16] 4 12 = .trimmed [4, 8, 12] ∧
    time_clip [0, 4, 8, 12, 16] 100 200 = .outOfRangeWarn ∧
    (∀ (time : List ℚ) (ts te : ℚ), te < ts → time_clip time ts te = .startAfterEnd) := by
  refine ⟨by decide, by decide, ?_⟩
  intro time ts te h
  simp [time_clip, h]

/-- Witness for `time_clip_boundary_semantics` at a concrete input. -/
theorem time_clip_boundary_semantics_witness :
    time_clip [(3 : ℚ)] 2 1 = .startAfterEnd :=
  time_clip_boundary_semantics.2.2 [3] 2 1 (by norm_num)

/-! ## xlim / tlimit (src/mutiny/xlim.py, src/mutiny/tlimit.py)

The global state is the pair of dicts `mutiny.tplot_opt_glob` (keys
`x_range`, `x_range_last`, `x_range_full`) and `mutiny.lim_info` (keys
`xfull`, `xlast`); an absent key is `none`. -/

/-- The five global x-range slots touched by `xlim`/`tlimit`. -/
structure GlobState where
  x_range : Option (ℚ × ℚ)
  x_range_last : Option (ℚ × ℚ)
  x_range_full : Option (ℚ × ℚ)
  xfull : Option (ℚ × ℚ)
  xlast : Option (ℚ × ℚ)
deriving DecidableEq

/-- `xlim(min, max)` for numeric arguments: if `x_range` is already
set, shift it into `x_range_last` and `lim_info['xlast']`; otherwise
record `x_range_full`, `xfull` and `xlast` as `[min, max]`; finally set
`x_range = [min, max]`. -/
def xlim (mn mx : ℚ) (s : GlobState) : GlobState :=
  let s1 :=
    match s.x_range with
    | some r => { s with x_range_last := some r, xlast := some r }
    | none =>
      { s with x_range_full := some (mn, mx), xfull := some (mn, mx), xlast := some (mn, mx) }
  { s1 with x_range := some (mn, mx) }

/-- `tlimit(last=True)`: `tplot_opt_glob['x_range'] =
tplot_opt_glob['x_range_last']`; a missing `x_range_last` key raises
KeyError, modelled as `none`. -/
def tlimit_last (s : GlobState) : Option GlobState :=
  match s.x_range_last with
  | none => none
  | some r => some { s with x_range := some r }

/-- C5: from a state with no `x_range`, `xlim(0,10); xlim(5,20);
tlimit(last=True)` leaves `x_range = [0,10]`; the first `xlim` call
records `x_range_full`/`xfull` and `xlast`; every `xlim` call sets
`x_range` to `[min,max]`, first shifting any prior `x_range` into
`x_range_last`/`xlast`. -/
theorem xlim_tlimit_history :
    (∀ s : GlobState, s.x_range = none →
      (tlimit_last (xlim 5 20 (xlim 0 10 s))).map GlobState.x_range = some (some (0, 10))) ∧
    (∀ (mn mx : ℚ) (s : GlobState), s.x_range = none →
      xlim mn mx s = { s with x_range := some (mn, mx), x_range_full := some (mn, mx),
                              xfull := some (mn, mx), xlast := some (mn, mx) }) ∧
    (∀ (mn mx : ℚ) (s : GlobState), (xlim mn mx s).x_range = some (mn, mx)) ∧
    (∀ (mn mx : ℚ) (s : GlobState) (r : ℚ × ℚ), s.x_range = some r →
      (xlim mn mx s).x_range_last = some r ∧ (xlim mn mx s).xlast = some r) := by
  refine ⟨?_, ?_, ?_, ?_⟩
  · intro s hs
    simp [xlim, tlimit_last, hs]
  · intro mn mx s hs
    simp [xlim, hs]
  · intro mn mx s
    cases hs : s.x_range <;> simp [xlim, hs]
  · intro mn mx s r hs
    simp [xlim, hs]

/-- Witness for `xlim_tlimit_history` at the all-empty start state. -/
theorem xlim_tlimit_history_witness :
    (tlimit_last (xlim 5 20 (xlim 0 10 ⟨none, none, none, none, none⟩))).map
      GlobState.x_range = some (some (0, 10)) :=
  xlim_tlimit_history.1 ⟨none, none, none, none, none⟩ rfl

/-! ## options 'ylog' (src/mutiny/options.py)

`options(name, 'ylog', value)` runs, for the named variable `i`:

    negflag = 0 # _ylog_check(data_quants, value, i)
    if negflag == 0 and value: ... 'log' ... else: ... 'linear'

i.e. the `_ylog_check` call is commented out and `negflag` is the
constant `0`.  The helper `_ylog_check` itself is still defined in the
source; for a non-spectrogram variable it scans the variable's data and
every overplot's data for negative values.  We model a variable by the
list `datasets` of those data arrays (the variable's own array first),
and the option value as an integer with Python truthiness `value ≠ 0`. -/

/-- `_ylog_check` for non-spectrogram datasets: `negflag = 1` when the
requested value is not exactly `1`, or when some dataset has a minimum
below zero (`dataset.min(skipna=True) < 0`, false for an all-NaN or
empty dataset); else `0`. -/
def ylog_check (datasets : List (List ℚ)) (value : ℤ) : ℤ :=
  if value = 1 then
    if datasets.any (fun d => d.any (fun x => decide (x < 0))) then 1 else 0
  else 1

/-- The `'ylog'` branch of `options` as written in the source: the
`_ylog_check` call is commented out, so `negflag` is always `0` and the
y-axis type depends only on the truthiness of `value`.  The `datasets`
argument is the variable (and overplot) data the disabled check would
have inspected. -/
def options_ylog (datasets : List (List ℚ)) (value : ℤ) : String :=
  let negflag : ℤ := 0
  if negflag = 0 ∧ value ≠ 0 then "log" else "linear"

/-- The claimed behaviour, written from the spec's words: log scale is
honored only when no negative values are found and the requested value
is exactly `1`; any other truthy or falsy value gives linear. -/
def options_ylog_claimed (datasets : List (List ℚ)) (value : ℤ) : String :=
  if value = 1 ∧ ¬ datasets.any (fun d => d.any (fun x => decide (x < 0))) then "log"
  else "linear"

/-- C4 counterexample: for a variable with data `[1]` and `value = 2`
(truthy but not `1`), the code sets the y-axis type to `'log'` while
the claim demands `'linear'`. -/
theorem options_ylog_counterexample :
    options_ylog [[1]] 2 = "log" ∧ options_ylog_claimed [[1]] 2 = "linear" ∧
    "log" ≠ "linear" := by
  refine ⟨rfl, rfl, by decide⟩

/-- C4 (amended): `options(name, 'ylog', v)` sets the variable's
`y_axis_type` to `'log'` for every truthy `v` and to `'linear'` for
falsy `v`, regardless of negative values: the `_ylog_check` guard is
disabled at the call site (`negflag` is hardcoded to `0`), even though
the helper itself would return `0` exactly when `v = 1` and no dataset
contains a negative value. -/
theorem options_ylog_truthiness (datasets : List (List ℚ)) (value : ℤ) :
    options_ylog datasets value = (if value ≠ 0 then "log" else "linear") ∧
    (ylog_check datasets value = 0 ↔
      value = 1 ∧ ¬ datasets.any (fun d => d.any (fun x => decide (x < 0)))) := by
  constructor
  · by_cases h : value = 0 <;> simp [options_ylog, h]
  · by_cases h : value = 1 <;>
      by_cases hneg : datasets.any (fun d => d.any (fun x => decide (x < 0))) <;>
        simp [ylog_check, h, hneg]

/-- Witness for `options_ylog_truthiness` at a concrete input. -/
theorem options_ylog_truthiness_witness :
    options_ylog [[1]] 2 = (if (2 : ℤ) ≠ 0 then "log" else "linear") :=
  (options_ylog_truthiness [[1]] 2).1

/-! ## The variable registry (src/mutiny/store_data.py and friends)

A record-varying registry entry is an xarray DataArray with a `name`
attribute, a data payload and a `plot_options` attribute dict.  We keep
the fields the claims inspect: the entry's internal name, its values,
and the plot-option sub-dicts touched by pseudo-variable construction.
Option sub-dicts are modelled as association lists. -/

/-- The `plot_options` attribute dict (the fields the claims use). -/
structure PlotOptions where
  yaxis_opt : List (String × String)
  zaxis_opt : List (String × String)
  line_opt : List (String × String)
  extras : List (String × String)
  overplots : List String
  overplots_mpl : List String
deriving DecidableEq

/-- A record-varying registry entry. -/
structure Entry where
  name : String
  values : List ℚ
  plot_options : PlotOptions
deriving DecidableEq

/-- The registry `mutiny.data_quants`: an insertion-ordered dict from
variable names to entries. -/
abbrev Registry := List (String × Entry)

/-! ## tplot_rename (src/mutiny/tplot_rename.py)

If the old name is absent, log and return.  Otherwise rebuild the dict
with the new name in the old name's slot (preserving insertion order)
and reset every entry's `name` attribute to its key. -/

/-- `tplot_rename(old_name, new_name)` acting on the registry. -/
def tplot_rename (reg : Registry) (old_name new_name : String) : Registry :=
  if (alookup reg old_name).isNone then reg
  else
    let d2 := reg.map (fun kv => if kv.1 = old_name then (new_name, kv.2) else kv)
    d2.map (fun kv => (kv.1, { kv.2 with name := kv.1 }))

/-- C6: renaming `"b"` to `"z"` in a registry with insertion order
`["a","b","c"]` (each entry's name attribute matching its key) yields
insertion order `["a","z","c"]`, with `"z"` carrying the original
`"b"` entry's data, `"b"` absent, every entry's name attribute equal to
its registry key, and the other entries unchanged. -/
theorem tplot_rename_order (va vb vc : List ℚ) (pa pb pc : PlotOptions) :
    tplot_rename [("a", ⟨"a", va, pa⟩), ("b", ⟨"b", vb, pb⟩), ("c", ⟨"c", vc, pc⟩)] "b" "z"
      = [("a", ⟨"a", va, pa⟩), ("z", ⟨"z", vb, pb⟩), ("c", ⟨"c", vc, pc⟩)] ∧
    (tplot_rename [("a", ⟨"a", va, pa⟩), ("b", ⟨"b", vb, pb⟩), ("c", ⟨"c", vc, pc⟩)]
        "b" "z").map Prod.fst = ["a", "z", "c"] ∧
    alookup (tplot_rename [("a", ⟨"a", va, pa⟩), ("b", ⟨"b", vb, pb⟩), ("c", ⟨"c", vc, pc⟩)]
        "b" "z") "b" = none ∧
    (alookup (tplot_rename [("a", ⟨"a", va, pa⟩), ("b", ⟨"b", vb, pb⟩), ("c", ⟨"c", vc, pc⟩)]
        "b" "z") "z").map Entry.values = some vb ∧
    (∀ kv ∈ tplot_rename [("a", ⟨"a", va, pa⟩), ("b", ⟨"b", vb, pb⟩), ("c", ⟨"c", vc, pc⟩)]
        "b" "z", kv.2.name = kv.1) := by
  refine ⟨rfl, rfl, rfl, rfl, ?_⟩
  intro kv hkv
  have h1 : tplot_rename [("a", ⟨"a", va, pa⟩), ("b", ⟨"b", vb, pb⟩), ("c", ⟨"c", vc, pc⟩)]
      "b" "z" = [("a", ⟨"a", va, pa⟩), ("z", ⟨"z", vb, pb⟩), ("c", ⟨"c", vc, pc⟩)] := rfl
  rw [h1] at hkv
  simp only [List.mem_cons, List.not_mem_nil, or_false] at hkv
  rcases hkv with h | h | h <;> subst h <;> rfl

/-- Witness for `tplot_rename_order` at concrete entries. -/
theorem tplot_rename_order_witness :
    tplot_rename [("a", ⟨"a", [1], ⟨[], [], [], [], [], []⟩⟩),
        ("b", ⟨"b", [2], ⟨[], [], [], [], [], []⟩⟩),
        ("c", ⟨"c", [3], ⟨[], [], [], [], [], []⟩⟩)] "b" "z"
      = [("a", ⟨"a", [1], ⟨[], [], [], [], [], []⟩⟩),
         ("z", ⟨"z", [2], ⟨[], [], [], [], [], []⟩⟩),
         ("c", ⟨"c", [3], ⟨[], [], [], [], [], []⟩⟩)] :=
  (tplot_rename_order [1] [2] [3] ⟨[], [], [], [], [], []⟩ ⟨[], [], [], [], [], []⟩
    ⟨[], [], [], [], [], []⟩).1

/-! ## store_data with a list of names (src/mutiny/store_data.py)

When `data` is a list of variable names, `store_data` builds a
pseudo-variable.  `_get_base_tplot_vars` keeps the names present in the
registry, warning about and dropping the others (stored entries carry
array payloads, never a list of names, so the source's recursion for a
list-valued `.data` never fires on entries built by this module).  If
no name resolves, `store_data` warns and returns `False` without
touching the registry; otherwise the new entry is a deep copy of the
first resolved base entry with its name set, `overplots` the remaining
bases, `overplots_mpl` the full base list, and empty `yaxis_opt`,
`zaxis_opt`, `line_opt` and `extras`. -/

/-- `_get_base_tplot_vars(name, data)`. -/
def get_base_tplot_vars (reg : Registry) (data : List String) : List String :=
  data.filter (fun v => (alookup reg v).isSome)

/-- The pseudo-variable entry built from the first resolved base. -/
def pseudoEntry (name : String) (e : Entry) (base_data : List String) : Entry :=
  { e with name := name,
           plot_options := { e.plot_options with
             overplots := base_data.tail,
             overplots_mpl := base_data,
             yaxis_opt := [], zaxis_opt := [], line_opt := [], extras := [] } }

/-- The list-of-names branch of `store_data`, returning the function's
boolean result and the updated registry. -/
def store_data_pseudo (reg : Registry) (name : String) (data : List String) :
    Bool × Registry :=
  let base_data := get_base_tplot_vars reg data
  match base_data with
  | [] => (false, reg)
  | b0 :: rest =>
    match alookup reg b0 with
    | none => (false, reg)
    | some e => (true, pyUpdate reg name (pseudoEntry name e (b0 :: rest)))

theorem mem_get_base_resolves (reg : Registry) (data : List String) :
    ∀ v ∈ get_base_tplot_vars reg data, (alookup reg v).isSome := by
  intro v hv
  exact (List.mem_filter.mp hv).2

/-- C3: every name in the constructed pseudo-variable's
`overplots_mpl` resolves in the registry; if no listed name resolves,
`store_data` returns `False` and leaves the registry unchanged;
otherwise it returns `True` and stores, under `name`, a copy of the
first resolved base entry with `overplots` the remaining bases,
`overplots_mpl` the full base list, and empty `yaxis_opt`,
`zaxis_opt`, `line_opt` and `extras`. -/
theorem store_data_pseudo_spec (reg : Registry) (name : String) (data : List String) :
    (∀ v ∈ get_base_tplot_vars reg data, (alookup reg v).isSome) ∧
    (get_base_tplot_vars reg data = [] →
      store_data_pseudo reg name data = (false, reg)) ∧
    (∀ b0 rest, get_base_tplot_vars reg data = b0 :: rest →
      ∃ e, alookup reg b0 = some e ∧
        store_data_pseudo reg name data =
          (true, pyUpdate reg name (pseudoEntry name e (b0 :: rest))) ∧
        alookup (pyUpdate reg name (pseudoEntry name e (b0 :: rest))) name =
          some (pseudoEntry name e (b0 :: rest)) ∧
        (pseudoEntry name e (b0 :: rest)).plot_options.overplots_mpl = b0 :: rest ∧
        (pseudoEntry name e (b0 :: rest)).plot_options.overplots = rest ∧
        (pseudoEntry name e (b0 :: rest)).plot_options.yaxis_opt = [] ∧
        (pseudoEntry name e (b0 :: rest)).plot_options.zaxis_opt = [] ∧
        (pseudoEntry name e (b0 :: rest)).plot_options.line_opt = [] ∧
        (pseudoEntry name e (b0 :: rest)).plot_options.extras = []) := by
  refine ⟨mem_get_base_resolves reg data, ?_, ?_⟩
  · intro h
    simp [store_data_pseudo, h]
  · intro b0 rest h
    have hb0 : (alookup reg b0).isSome := by
      apply mem_get_base_resolves reg data
      simp [h]
    obtain ⟨e, he⟩ := Option.isSome_iff_exists.mp hb0
    refine ⟨e, he, ?_, alookup_pyUpdate_self _ _ _, rfl, rfl, rfl, rfl, rfl, rfl⟩
    simp [store_data_pseudo, h, he]

/-- Witness for `store_data_pseudo_spec`: a one-entry registry, with
`store_data("p", data=["a", "x"])` resolving only `"a"`. -/
theorem store_data_pseudo_spec_witness :
    store_data_pseudo [("a", ⟨"a", [1], ⟨[], [], [], [], [], []⟩⟩)] "p" ["a", "x"]
      = (true, pyUpdate [("a", ⟨"a", [1], ⟨[], [], [], [], [], []⟩⟩)] "p"
          (pseudoEntry "p" ⟨"a", [1], ⟨[], [], [], [], [], []⟩⟩ ["a"])) := by
  obtain ⟨-, -, h⟩ :=
    store_data_pseudo_spec [("a", ⟨"a", [1], ⟨[], [], [], [], [], []⟩⟩)] "p" ["a", "x"]
  obtain ⟨e, he, hs, -⟩ := h "a" [] (by decide)
  have : e = ⟨"a", [1], ⟨[], [], [], [], [], []⟩⟩ := by
    have h2 : alookup [("a", (⟨"a", [1], ⟨[], [], [], [], [], []⟩⟩ : Entry))] "a"
        = some ⟨"a", [1], ⟨[], [], [], [], [], []⟩⟩ := rfl
    rw [h2] at he
    exact (Option.some.inj he).symm
  rw [this] at hs
  exact hs

/-! ## deflag, method 'repeat', flag NaN (src/mutiny/tplot_math/deflag.py)

A NaN-capable sample is `Option ℚ`, with `none` standing for NaN.  With
`flag=NaN` the method='repeat' branch runs, per column `k`:

    print(data[:, k])                                  -- IndexError when data is 1-D
    flagged_data = np.where(np.isnan(data[:, k]))[0]
    if len(flagged_data) > 0:
        okval = np.where(np.isnan(data[:, k]) is False)[0]
        if len(okval) == 0: log('No unflagged data, returning'); return
        ... repeat-fill loop over j ...

`np.isnan(data[:, k]) is False` is an identity comparison between an
array and the constant `False`; it always evaluates to `False`, so
`okval` is always empty and any column containing a flagged sample
triggers the early return before any value is replaced. -/

/-- A sample value that may be NaN (`none`). -/
abbrev EVal := Option ℚ

/-- Outcome of the method='repeat' branch: an uncaught IndexError, the
early `'No unflagged data, returning'` exit (registry untouched, even
when `newname` was given), or the data handed to `store_data`. -/
inductive DeflagOutcome where
  | indexError
  | earlyReturn
  | stored (rows : List (List EVal))
deriving DecidableEq

/-- `data[:, k]` on the 2-D row list. -/
def colAt (rows : List (List EVal)) (k : ℕ) : List EVal :=
  rows.map (fun r => r.getD k (some 0))

/-- `np.where(np.isnan(column))[0]`. -/
def flaggedIdx (col : List EVal) : List ℕ :=
  (List.range col.length).filter (fun j => (col.getD j (some 0)).isNone)

/-- `np.where(np.isnan(column) is False)[0]`: the identity comparison
with `False` is always `False`, so the index array is always empty. -/
def okvalIdentityFalse (col : List EVal) : List ℕ := []

/-- The unflagged indices as the surrounding code intends them
(`np.where(np.isnan(column) == False)[0]`); written from the
docstring's 'Repeat last good value' semantics to compare with the
source's `is False` version. -/
def okvalIntended (col : List EVal) : List ℕ :=
  (List.range col.length).filter (fun j => !(col.getD j (some 0)).isNone)

/-- The mutating repeat-fill loop over `j = 1, ..., ntimes-1`: a NaN
sample takes the (already updated) previous sample's value. -/
def repeatFillRest (prev : EVal) : List EVal → List EVal
  | [] => []
  | v :: vs =>
    let nv := if v.isNone then prev else v
    nv :: repeatFillRest nv vs

/-- The full repeat-fill loop: at `j = 0` a NaN sample takes
`data[okval[0], k]` (the first unflagged value `ok0`); afterwards each
NaN sample takes the previous (updated) value. -/
def repeatFillCol (col : List EVal) (ok0 : EVal) : List EVal :=
  match col with
  | [] => []
  | v :: vs =>
    let v0 := if v.isNone then ok0 else v
    v0 :: repeatFillRest v0 vs

/-- Writes a processed column back into the row list. -/
def setCol (rows : List (List EVal)) (k : ℕ) (newcol : List EVal) : List (List EVal) :=
  List.zipWith (fun r v => r.set k v) rows newcol

/-- The `for k in range(ny)` loop of the method='repeat' branch with a
NaN flag, as the source computes it (`okvalIdentityFalse`). -/
def deflagRepeatNanCols (rows : List (List EVal)) : List ℕ → DeflagOutcome
  | [] => .stored rows
  | k :: ks =>
    let col := colAt rows k
    if flaggedIdx col ≠ [] then
      let okval := okvalIdentityFalse col
      if okval = [] then .earlyReturn
      else
        deflagRepeatNanCols
          (setCol rows k (repeatFillCol col (col.getD (okval.headD 0) (some 0)))) ks
    else deflagRepeatNanCols rows ks

/-- `deflag(tvar, flag=NaN, method='repeat')` on a 1-D (`Sum.inl`) or
2-D (`Sum.inr`) data array: on 1-D data, `data[:, k]` raises an
uncaught IndexError; on 2-D data the per-column loop runs with
`ny = data.shape[1]`. -/
def deflag_repeat_nan : List EVal ⊕ List (List EVal) → DeflagOutcome
  | .inl _ => .indexError
  | .inr rows => deflagRepeatNanCols rows (List.range (rows.headD []).length)

/-- The same loop with `okval` computed as intended
(`okvalIntended`), exhibiting the docstring's 'Repeat last good value'
behaviour the claim describes. -/
def deflagRepeatNanIntendedCols (rows : List (List EVal)) : List ℕ → DeflagOutcome
  | [] => .stored rows
  | k :: ks =>
    let col := colAt rows k
    if flaggedIdx col ≠ [] then
      let okval := okvalIntended col
      if okval = [] then .earlyReturn
      else
        deflagRepeatNanIntendedCols
          (setCol rows k (repeatFillCol col (col.getD (okval.headD 0) (some 0)))) ks
    else deflagRepeatNanIntendedCols rows ks

/-- The intended method='repeat' branch on 2-D data. -/
def deflag_repeat_intended (rows : List (List EVal)) : DeflagOutcome :=
  deflagRepeatNanIntendedCols rows (List.range (rows.headD []).length)

/-- C1: on the single-column series `[1, NaN, NaN, 4]` with `flag=NaN`
and method='repeat', the code as written raises IndexError for a 1-D
value array and takes the `'No unflagged data, returning'` early exit
for a (4,1)-shaped array — it never produces `[1, 1, 1, 4]` — while
the repeat-fill loop with the unflagged indices computed as intended
does produce `[1, 1, 1, 4]`. -/
theorem deflag_repeat_nan_flag :
    deflag_repeat_nan (.inl [some 1, none, none, some 4]) = .indexError ∧
    deflag_repeat_nan (.inr [[some 1], [none], [none], [some 4]]) = .earlyReturn ∧
    deflag_repeat_intended [[some 1], [none], [none], [some 4]]
      = .stored [[some 1], [some 1], [some 1], [some 4]] := by
  refine ⟨rfl, by decide, by decide⟩

/-! ## split_vec / join_vec (src/mutiny/tplot_math/split_vec.py,
src/mutiny/tplot_math/join_vec.py)

`split_vec` on a 2-D variable stores, for each column index `i`, the
1-D variable `data[:, [i]].squeeze()` (for a 3-column input, under
suffixes `_x`, `_y`, `_z`).  `join_vec` concatenates the variables'
data column-wise over the shared time index (`pd.concat(axis=1)`), so
for three 1-D inputs on the same time axis row `j` of the result is
`[c0[j], c1[j], c2[j]]`. -/

/-- `data[:, [i]].squeeze()`: column `i` of the 2-D row list. -/
def split_vec_col (rows : List (List ℚ)) (i : ℕ) : List ℚ :=
  rows.map (fun r => r.getD i 0)

/-- `join_vec` of three 1-D variables sharing one time axis: the
column-wise concatenation. -/
def join_vec3 (c0 c1 c2 : List ℚ) : List (List ℚ) :=
  List.zipWith (fun a bc => a :: bc) c0 (List.zipWith (fun b c => [b, c]) c1 c2)

/-- C7: for a 2-D variable with exactly 3 columns, `join_vec` applied
to the three `split_vec` components `_x`, `_y`, `_z` (in the same
column order) reproduces the original 2-D array, column for column. -/
theorem split_join_roundtrip (rows : List (List ℚ)) (h : ∀ r ∈ rows, r.length = 3) :
    join_vec3 (split_vec_col rows 0) (split_vec_col rows 1) (split_vec_col rows 2) = rows := by
  induction rows with
  | nil => rfl
  | cons r rest ih =>
    have hr : r.length = 3 := h r (by simp)
    obtain ⟨a, b, c, hrabc⟩ : ∃ a b c, r = [a, b, c] := by
      match r, hr with
      | [a, b, c], _ => exact ⟨a, b, c, rfl⟩
    subst hrabc
    have hrest : join_vec3 (split_vec_col rest 0) (split_vec_col rest 1)
        (split_vec_col rest 2) = rest := ih (fun r hmem => h r (by simp [hmem]))
    simp [join_vec3, split_vec_col, List.getD] at hrest ⊢
    exact hrest

/-- Witness for `split_join_roundtrip` on a concrete 2×3 array. -/
theorem split_join_roundtrip_witness :
    join_vec3 (split_vec_col [[1, 2, 3], [4, 5, 6]] 0)
      (split_vec_col [[(1 : ℚ), 2, 3], [4, 5, 6]] 1)
      (split_vec_col [[(1 : ℚ), 2, 3], [4, 5, 6]] 2) = [[(1 : ℚ), 2, 3], [4, 5, 6]] :=
  split_join_roundtrip [[1, 2, 3], [4, 5, 6]] (by decide)

/-! ## tinterp / divide / multiply / subtract
(src/mutiny/tplot_math/tinterp.py, divide.py, multiply.py, subtract.py)

`tinterp(tvar1, tvar2)` interpolates `tvar2`'s data onto `tvar1`'s
time axis (`interp_like`, linear interpolation over time) and stores
the result under `tvar1 + "_tinterp"`.  The binary operators call it,
apply the elementwise operation, and either overwrite `tvar1` in place
(returning `tvar1`) or store under `newname`.  `divide` ends with
`return new_tvar` — the deprecated parameter — where `multiply` and
`subtract` end with `return newname`. -/

/-- A 1-D record-varying variable: a time axis and its values. -/
structure TSVar where
  times : List ℚ
  values : List ℚ
deriving DecidableEq

/-- The registry restricted to 1-D variables. -/
abbrev TSRegistry := List (String × TSVar)

/-- Piecewise-linear interpolation through the points `pts` (time
sorted ascending), evaluated at `t`; at a shared abscissa it returns
the literal ordinate. -/
def interpPts : List (ℚ × ℚ) → ℚ → ℚ
  | [], _ => 0
  | [(_, y)], _ => y
  | (x0, y0) :: (x1, y1) :: rest, t =>
    if t ≤ x1 then y0 + (y1 - y0) * (t - x0) / (x1 - x0)
    else interpPts ((x1, y1) :: rest) t

/-- The data produced by `tinterp(tvar1, tvar2)`: `tvar2`'s values
linearly interpolated onto `tvar1`'s time axis. -/
def tinterp_data (v1 v2 : TSVar) : TSVar :=
  ⟨v1.times, v1.times.map (interpPts (v2.times.zip v2.values))⟩

/-- `divide(tvar1, tvar2, newname, new_tvar)`: aliases `new_tvar` into
`newname`, interpolates (storing the `tvar1 + "_tinterp"` side
variable), divides elementwise, then either overwrites `tvar1` and
returns its name, or stores under `newname` and returns the deprecated
`new_tvar` parameter.  `none` when a variable is missing (Python
raises KeyError). -/
def divide (reg : TSRegistry) (tvar1 tvar2 : String) (newname new_tvar : Option String) :
    Option (TSRegistry × Option String) :=
  let nn := if new_tvar.isSome then new_tvar else newname
  match alookup reg tvar1, alookup reg tvar2 with
  | some v1, some v2 =>
    let v2i := tinterp_data v1 v2
    let reg1 := pyUpdate reg (tvar1 ++ "_tinterp") v2i
    let data := List.zipWith (fun a b => a / b) v1.values v2i.values
    match nn with
    | none => some (pyUpdate reg1 tvar1 ⟨v1.times, data⟩, some tvar1)
    | some s => some (pyUpdate reg1 s ⟨v1.times, data⟩, new_tvar)
  | _, _ => none

/-- `multiply(tvar1, tvar2, newname, new_tvar)`; returns `newname` in
the stored-copy case. -/
def multiply (reg : TSRegistry) (tvar1 tvar2 : String) (newname new_tvar : Option String) :
    Option (TSRegistry × Option String) :=
  let nn := if new_tvar.isSome then new_tvar else newname
  match alookup reg tvar1, alookup reg tvar2 with
  | some v1, some v2 =>
    let v2i := tinterp_data v1 v2
    let reg1 := pyUpdate reg (tvar1 ++ "_tinterp") v2i
    let data := List.zipWith (fun a b => a * b) v1.values v2i.values
    match nn with
    | none => some (pyUpdate reg1 tvar1 ⟨v1.times, data⟩, some tvar1)
    | some s => some (pyUpdate reg1 s ⟨v1.times, data⟩, nn)
  | _, _ => none

/-- `subtract(tvar1, tvar2, newname, new_tvar)`; returns `newname` in
the stored-copy case. -/
def subtract (reg : TSRegistry) (tvar1 tvar2 : String) (newname new_tvar : Option String) :
    Option (TSRegistry × Option String) :=
  let nn := if new_tvar.isSome then new_tvar else newname
  match alookup reg tvar1, alookup reg tvar2 with
  | some v1, some v2 =>
    let v2i := tinterp_data v1 v2
    let reg1 := pyUpdate reg (tvar1 ++ "_tinterp") v2i
    let data := List.zipWith (fun a b => a - b) v1.values v2i.values
    match nn with
    | none => some (pyUpdate reg1 tvar1 ⟨v1.times, data⟩, some tvar1)
    | some s => some (pyUpdate reg1 s ⟨v1.times, data⟩, nn)
  | _, _ => none

/-- The registry holding the claims' variables `'a'` and `'c'`. -/
def regAC : TSRegistry :=
  [("a", ⟨[0, 4, 8, 12, 16], [1, 2, 3, 4, 5]⟩),
   ("c", ⟨[0, 4, 8, 12, 16, 19, 21], [1, 4, 1, 7, 1, 9, 1]⟩)]

/-- C8: `divide('a','c', newname='a_over_c')` stores, under
`'a_over_c'`, a result on `'a'`'s five time points whose values are
`a[t]` divided by `c` interpolated onto `t`; at the shared timestamps
the interpolation reproduces `c`'s literal values `[1,4,1,7,1]`, so
the result is `1` at `t=0` and `1/2` at `t=4`. -/
theorem divide_interpolates :
    (tinterp_data ⟨[0, 4, 8, 12, 16], [1, 2, 3, 4, 5]⟩
        ⟨[0, 4, 8, 12, 16, 19, 21], [1, 4, 1, 7, 1, 9, 1]⟩).values = [1, 4, 1, 7, 1] ∧
    (∃ reg', divide regAC "a" "c" (some "a_over_c") none = some (reg', none) ∧
      alookup reg' "a_over_c" =
        some ⟨[0, 4, 8, 12, 16], [1, 1/2, 3, 4/7, 5]⟩) := by
  constructor
  · norm_num [tinterp_data, interpPts]
  · refine ⟨_, rfl, ?_⟩
    rw [alookup_pyUpdate_self]
    norm_num [tinterp_data, interpPts]

/-- C10: with `new_tvar` at its default `None` and a non-`None`
`newname`, `divide` stores the quotient under `newname` but returns
`None` (the deprecated `new_tvar` parameter), while `multiply` and
`subtract` return `newname`; only the in-place form (`newname`
omitted) returns `tvar1`'s name. -/
theorem divide_returns_new_tvar (reg : TSRegistry) (t1 t2 s : String) (v1 v2 : TSVar)
    (h1 : alookup reg t1 = some v1) (h2 : alookup reg t2 = some v2) :
    (divide reg t1 t2 (some s) none).map Prod.snd = some none ∧
    (∃ reg', divide reg t1 t2 (some s) none = some (reg', none) ∧
      alookup reg' s =
        some ⟨v1.times, List.zipWith (fun a b => a / b) v1.values
          (tinterp_data v1 v2).values⟩) ∧
    (multiply reg t1 t2 (some s) none).map Prod.snd = some (some s) ∧
    (subtract reg t1 t2 (some s) none).map Prod.snd = some (some s) ∧
    (divide reg t1 t2 none none).map Prod.snd = some (some t1) := by
  refine ⟨?_, ?_, ?_, ?_, ?_⟩
  · simp [divide, h1, h2]
  · refine ⟨pyUpdate (pyUpdate reg (t1 ++ "_tinterp") (tinterp_data v1 v2)) s
      ⟨v1.times, List.zipWith (fun a b => a / b) v1.values (tinterp_data v1 v2).values⟩,
      ?_, alookup_pyUpdate_self _ _ _⟩
    simp [divide, h1, h2]
  · simp [multiply, h1, h2]
  · simp [subtract, h1, h2]
  · simp [divide, h1, h2]

/-- Witness for `divide_returns_new_tvar` on the concrete registry of
`'a'` and `'c'`. -/
theorem divide_returns_new_tvar_witness :
    (divide regAC "a" "c" (some "q") none).map Prod.snd = some none ∧
    (multiply regAC "a" "c" (some "q") none).map Prod.snd = some (some "q") := by
  have h := divide_returns_new_tvar regAC "a" "c" "q"
    ⟨[0, 4, 8, 12, 16], [1, 2, 3, 4, 5]⟩
    ⟨[0, 4, 8, 12, 16, 19, 21], [1, 4, 1, 7, 1, 9, 1]⟩ rfl rfl
  exact ⟨h.1, h.2.2.1⟩

/-! ## del_data (src/mutiny/del_data.py)

`del_data(name)` with a list iterates over the names.  A name
containing `?` or `*` is treated as a glob: each registry entry whose
name attribute matches is appended to the (call-wide) `entries` list,
and every accumulated entry still present is deleted.  A literal name
absent from the registry is reported with an info log and the function
returns immediately, leaving the rest of the list unprocessed; a
literal present name has its entry deleted (by the entry's name
attribute). -/

/-- `('?' in i) or ('*' in i)`. -/
def hasWildcard (s : String) : Bool := s.data.contains '?' || s.data.contains '*'

/-- `fnmatch` matching of a whole string against a pattern built from
literal characters, `?` (any one character) and `*` (any run of
characters); character classes (`[...]`) are not modelled, so the
theorems below only quantify over patterns without `[`. -/
def fnmatchChars : List Char → List Char → Bool
  | [], [] => true
  | [], _ :: _ => false
  | '*' :: ps, [] => fnmatchChars ps []
  | '*' :: ps, c :: s' => fnmatchChars ps (c :: s') || fnmatchChars ('*' :: ps) s'
  | '?' :: ps, [] => false
  | '?' :: ps, _ :: s' => fnmatchChars ps s'
  | _ :: _, [] => false
  | p :: ps, c :: s' => (p = c) && fnmatchChars ps s'
termination_by p s => (s.length, p.length)

/-- `fnmatch.fnmatch(name, pat)` (POSIX: case-sensitive). -/
def fnmatch (name pat : String) : Bool := fnmatchChars pat.data name.data

/-- The names accumulated for a glob element: every registry entry (in
registry order) whose name attribute matches the pattern. -/
def globMatches (reg : Registry) (pat : String) : List String :=
  (reg.filter (fun kv => fnmatch kv.2.name pat)).map (fun kv => kv.2.name)

/-- The `for i in name:` loop of `del_data`: carries the registry and
the call-wide `entries` accumulator; the third component is the absent
literal name the call aborted on, if any. -/
def del_data_loop (reg : Registry) (entries : List String) :
    List String → Registry × List String × Option String
  | [] => (reg, entries, none)
  | i :: rest =>
    if hasWildcard i then
      let entries2 := entries ++ globMatches reg i
      let reg2 := entries2.foldl
        (fun r key => if (alookup r key).isSome then pyErase r key else r) reg
      del_data_loop reg2 entries2 rest
    else
      match alookup reg i with
      | none => (reg, entries, some i)
      | some e => del_data_loop (pyErase reg e.name) entries rest

/-- `del_data(name_list)`: the final registry and the name aborted on
(if any). -/
def del_data (reg : Registry) (names : List String) : Registry × Option String :=
  let r := del_data_loop reg [] names
  (r.1, r.2.2)

theorem del_data_loop_abort (post : List String) (i : String) (hw : hasWildcard i = false) :
    ∀ (pre : List String) (reg : Registry) (entries : List String)
      (reg' : Registry) (es : List String),
      del_data_loop reg entries pre = (reg', es, none) →
      alookup reg' i = none →
      del_data_loop reg entries (pre ++ i :: post) = (reg', es, some i) := by
  intro pre
  induction pre with
  | nil =>
    intro reg entries reg' es hpre habs
    simp only [del_data_loop, Prod.mk.injEq] at hpre
    obtain ⟨h1, h2, -⟩ := hpre
    subst h1
    subst h2
    simp [del_data_loop, hw, habs]
  | cons p ps ih =>
    intro reg entries reg' es hpre habs
    by_cases hpw : hasWildcard p
    · simp only [List.cons_append, del_data_loop, hpw, if_true] at hpre ⊢
      exact ih _ _ _ _ hpre habs
    · simp only [List.cons_append, del_data_loop, hpw, if_false, Bool.false_eq_true] at hpre ⊢
      cases halp : alookup reg p with
      | none =>
        rw [halp] at hpre
        simp at hpre
      | some e =>
        rw [halp] at hpre
        exact ih _ _ _ _ hpre habs

/-- C9: when `del_data` reaches a literal (wildcard-free) name `i`
that is absent from the registry at that point, it returns
immediately: the result is the registry obtained from the names
processed before `i` (those deletions already applied), and the names
after `i` are never processed (the result does not depend on them). -/
theorem del_data_absent_literal_aborts (reg reg' : Registry) (es : List String)
    (pre post : List String) (i : String)
    (hw : hasWildcard i = false)
    (hpre : del_data_loop reg [] pre = (reg', es, none))
    (habs : alookup reg' i = none) :
    del_data reg (pre ++ i :: post) = (reg', some i) := by
  unfold del_data
  rw [del_data_loop_abort post i hw pre reg [] reg' es hpre habs]

/-- Witness for `del_data_absent_literal_aborts`: deleting
`["a", "b", "c"]` from a registry holding only `"a"` deletes `"a"`,
aborts on `"b"`, and never processes `"c"`. -/
theorem del_data_absent_literal_aborts_witness :
    del_data [("a", ⟨"a", [1], ⟨[], [], [], [], [], []⟩⟩)] ["a", "b", "c"]
      = ([], some "b") :=
  del_data_absent_literal_aborts [("a", ⟨"a", [1], ⟨[], [], [], [], [], []⟩⟩)] [] []
    ["a"] ["c"] "b" (by decide) (by decide) rfl

end Mutiny
